import Mathlib

/-!
Verification of the securePy chat server core (`src/core/protocol.py` and
`src/core/server.py`) against its natural-language specification.

Modelling conventions (shallow embedding):

* JSON values are modelled by `JsonValue`.  Python's `json.loads`/`json.dumps`
  pair is lossless on the values this program exchanges, so the wire format is
  modelled at the level of parsed JSON values; a frame that is not JSON is
  modelled as `none : Option JsonValue`.
* The `ChatMessage` dataclass performs no type enforcement on its fields, so
  its fields other than `type` are modelled as raw `JsonValue`s
  (`from_json` really does store whatever the JSON object carried).
* Python exceptions in repository code are modelled as `Option`/explicit
  failure results; every place where an exception is caught in the source is a
  `match` on that result here.
* `str.isprintable` and `time.time()` are Python-runtime services, not
  repository code; they are abstracted as parameters (`isPrintable` in
  `sanitize_content`, the `now` field of `SysCtx`).
* `socket.send` success/failure is abstracted by the oracle `sendOk`: sending
  on socket `n` raises (an `ssl.SSLError`/`BrokenPipeError`/`OSError`) exactly
  when `sendOk n = false`.
-/

namespace SecurePy

/-! ## JSON values -/

mutual

/-- A parsed JSON value (the result of `json.loads`).  Numbers are modelled by
`Int`; the program never computes with them, it only copies them around. -/
inductive JsonValue where
  | null
  | bool (b : Bool)
  | num (n : Int)
  | str (s : String)
  | arr (elems : JsonList)
  | obj (fields : JsonFields)
deriving DecidableEq, Repr

/-- A list of JSON values (the payload of a JSON array). -/
inductive JsonList where
  | nil
  | cons (v : JsonValue) (rest : JsonList)
deriving DecidableEq, Repr

/-- The key/value pairs of a JSON object, in insertion order (Python dicts
preserve insertion order; `json.loads` output never has duplicate keys). -/
inductive JsonFields where
  | nil
  | cons (key : String) (v : JsonValue) (rest : JsonFields)
deriving DecidableEq, Repr

end

/-- Dictionary lookup, `data[key]` / `data.get(key)`: first matching key. -/
def JsonFields.lookup : JsonFields → String → Option JsonValue
  | .nil, _ => none
  | .cons k v rest, key => if k = key then some v else rest.lookup key

/-- `key in data`. -/
def JsonFields.hasKey (fs : JsonFields) (key : String) : Bool :=
  (fs.lookup key).isSome

/-- The list of keys of a JSON object. -/
def JsonFields.keys : JsonFields → List String
  | .nil => []
  | .cons k _ rest => k :: rest.keys

def JsonFields.isEmpty : JsonFields → Bool
  | .nil => true
  | .cons _ _ _ => false

def JsonList.isEmpty : JsonList → Bool
  | .nil => true
  | .cons _ _ => false

/-- Python truthiness of a JSON value (`if message.metadata:` …):
`None`, `False`, `0`, `""`, `[]` and `{}` are falsy, everything else truthy. -/
def JsonValue.truthy : JsonValue → Bool
  | .null => false
  | .bool b => b
  | .num n => n != 0
  | .str s => s != ""
  | .arr l => !l.isEmpty
  | .obj f => !f.isEmpty

/-! ## `protocol.py`: MessageType and ChatMessage -/

/-- `class MessageType(Enum)` — the six supported message types. -/
inductive MessageType where
  | auth
  | chat
  | system
  | command
  | error
  | status
deriving DecidableEq, Repr

/-- `MessageType.<X>.value` — the string tag of each enum member. -/
def MessageType.value : MessageType → String
  | .auth => "auth"
  | .chat => "chat"
  | .system => "system"
  | .command => "command"
  | .error => "error"
  | .status => "status"

/-- `[t.value for t in MessageType]`. -/
def messageTypeTags : List String :=
  ["auth", "chat", "system", "command", "error", "status"]

/-- `MessageType(x)`: succeeds exactly when `x` is one of the six string tags
(any other value raises `ValueError`). -/
def messageTypeOfValue : JsonValue → Option MessageType
  | .str "auth" => some .auth
  | .str "chat" => some .chat
  | .str "system" => some .system
  | .str "command" => some .command
  | .str "error" => some .error
  | .str "status" => some .status
  | _ => none

/-- `@dataclass class ChatMessage`.  The dataclass does not enforce the field
annotations, so every field except `type` holds a raw JSON value; `type` is
always a genuine `MessageType` because both construction sites
(`from_json` after `MessageType(...)`, and the message factories) guarantee
it.  `metadata=None` is modelled by `JsonValue.null`. -/
structure ChatMessage where
  type : MessageType
  timestamp : JsonValue
  sender : JsonValue
  content : JsonValue
  metadata : JsonValue := .null
deriving DecidableEq, Repr

/-- `ChatMessage.to_json`: `asdict(self)` in field declaration order, with the
enum replaced by its string tag.  (`json.dumps` of this dict, which is
lossless, is left implicit.) -/
def ChatMessage.to_json (m : ChatMessage) : JsonValue :=
  .obj (.cons "type" (.str m.type.value)
    (.cons "timestamp" m.timestamp
      (.cons "sender" m.sender
        (.cons "content" m.content
          (.cons "metadata" m.metadata .nil)))))

/-- The set of constructor keyword names accepted by `ChatMessage(**data)`. -/
def chatMessageFieldNames : List String :=
  ["type", "timestamp", "sender", "content", "metadata"]

/-- `ChatMessage.from_json` on an already-parsed JSON value.  `none` models an
escaped exception: `data['type']` on a non-dict (`TypeError`) or with the key
missing (`KeyError`), `MessageType(...)` on a bad tag (`ValueError`), and
`cls(**data)` with an unexpected or missing keyword (`TypeError`).
No field kinds are checked: whatever values the object carried are stored. -/
def ChatMessage.from_json (v : JsonValue) : Option ChatMessage :=
  match v with
  | .obj data =>
    match data.lookup "type" with
    | none => none
    | some tv =>
      match messageTypeOfValue tv with
      | none => none
      | some ty =>
        if (data.keys.all fun k => chatMessageFieldNames.contains k)
            && data.hasKey "timestamp" && data.hasKey "sender"
            && data.hasKey "content" then
          some { type := ty
                 timestamp := (data.lookup "timestamp").getD .null
                 sender := (data.lookup "sender").getD .null
                 content := (data.lookup "content").getD .null
                 metadata := (data.lookup "metadata").getD .null }
        else none
  | _ => none

/-- `ChatTextMessage(sender, content, room)` via
`MessageFactory.create_chat_message`; `now` models `time.time()`. -/
def create_chat_message (now : Int) (sender content : String) (room : JsonValue) :
    ChatMessage :=
  { type := .chat
    timestamp := .num now
    sender := .str sender
    content := .str content
    metadata := .obj (.cons "room" room .nil) }

/-- `SystemMessage(content, level)`. -/
def systemMessage (now : Int) (content : String) (level : String := "info") :
    ChatMessage :=
  { type := .system
    timestamp := .num now
    sender := .str "system"
    content := .str content
    metadata := .obj (.cons "level" (.str level) .nil) }

/-- `ErrorMessage(error_code, error_message)`; the server always leaves
`details=None`. -/
def errorMessage (now : Int) (error_code error_message : String) : ChatMessage :=
  { type := .error
    timestamp := .num now
    sender := .str "system"
    content := .str error_message
    metadata := .obj (.cons "error_code" (.str error_code)
      (.cons "details" .null .nil)) }

/-! ## `protocol.py`: ProtocolValidator -/

/-- `ProtocolValidator.validate_message` on the parse result of the input
string (`none` = `json.JSONDecodeError`, caught, `False`).  On a non-dict
JSON value the subscript `data['type']` raises `TypeError`, which the
`except` clause also turns into `False`.  Note the timestamp check is
`isinstance(data['timestamp'], (int, float))` and Python `bool` is a subclass
of `int`, so a JSON boolean timestamp passes it. -/
def validate_message (parsed : Option JsonValue) : Bool :=
  match parsed with
  | some (.obj data) =>
    (["type", "timestamp", "sender", "content"].all fun f => data.hasKey f)
    && (match data.lookup "type" with
        | some (.str t) => messageTypeTags.contains t
        | _ => false)
    && (match data.lookup "timestamp" with
        | some (.num _) => true
        | some (.bool _) => true
        | _ => false)
    && (match data.lookup "sender" with
        | some (.str _) => true
        | _ => false)
    && (match data.lookup "content" with
        | some (.str _) => true
        | _ => false)
  | _ => false

/-- `ProtocolValidator.sanitize_content`, abstracted over `str.isprintable`
(a Python-runtime classification of Unicode characters): keep the characters
that are printable or are `'\n'`/`'\t'`, then truncate to 516 characters. -/
def sanitize_content (isPrintable : Char → Bool) (content : String) : String :=
  String.mk (((content.toList.filter
    fun ch => isPrintable ch || ch == '\n' || ch == '\t')).take 516)

/-! ## `server.py`: sessions and server state -/

/-- `class ClientConnection`.  The SSL socket object is identified by a
numeric id (`sockId`); distinct live connections have distinct sockets.
`address` and `last_activity` are dropped: no claim mentions them and no
control flow depends on them.  `connected` is set once at construction and
never assigned again anywhere in `server.py`. -/
structure ClientConnection where
  sockId : Nat
  username : String
  authenticated : Bool
  connected : Bool
deriving DecidableEq, Repr

/-- The mutable server registry plus the observable I/O history:

* `clients` — `self.clients : Dict[socket, ClientConnection]` in insertion
  order, each entry standing for one key/value pair (the key is the entry's
  `sockId`);
* `usernames` — `self.usernames : Set[str]` (a Python set: no duplicates;
  iteration order is irrelevant to every claim);
* `sent` — the log of successful `socket.send` calls, as
  (socket id, message) pairs in send order;
* `closed` — the log of `socket.close()` calls.

`self.rooms` is created at `__init__` and never read or written afterwards,
so it is omitted. -/
structure ServerState where
  clients : List ClientConnection
  usernames : List String
  sent : List (Nat × ChatMessage)
  closed : List Nat
deriving DecidableEq, Repr

/-- Ambient runtime facts the server code consults but does not control:
whether `socket.send` on a given socket succeeds (`sendOk`), the current
clock (`now`, models `time.time()`), the Unicode printability
classification used by `sanitize_content`, and Python's `str.strip`
(Unicode-whitespace trimming). -/
structure SysCtx where
  sendOk : Nat → Bool
  now : Int
  isPrintable : Char → Bool
  strip : String → String

/-- `set.add` (no-op when already present). -/
def namesAdd (names : List String) (u : String) : List String :=
  if names.contains u then names else names ++ [u]

/-! ## `server.py`: broadcast and removal

`broadcast_message` and `remove_client` are mutually recursive in the source:
a failed send during a broadcast removes that client, and removing an
authenticated client broadcasts a "left" notification.  The recursion
terminates because every genuinely-removing call shrinks `clients`; the
functions are defined with an explicit fuel argument and the wrappers below
supply `2 * clients.length + 4` fuel, which covers every cascade the program
can produce (each nesting level of the cascade either removes a client from
the map or is immediately followed by a level that does). -/

/-- `client_conn != exclude_client`: object identity of connections, modelled
by socket id; `none` is `exclude_client=None`, which equals no connection. -/
def notExcluded (excl : Option Nat) (c : ClientConnection) : Bool :=
  match excl with
  | some e => c.sockId != e
  | none => true

mutual

/-- `SecureChatServer.broadcast_message` (fuelled).  One sweep over the
current `self.clients.values()`: every entry that is not the excluded sender
(object identity, modelled by `sockId`) and is authenticated gets a `send`;
the sends that raise are collected in `disconnected_clients`; after the full
sweep each collected client is removed.  `excl` is
`exclude_client`'s socket id (`none` = `exclude_client=None`). -/
def broadcastF (ctx : SysCtx) : Nat → ChatMessage → Option Nat → ServerState → ServerState
  | 0, _, _, st => st
  | fuel + 1, msg, excl, st =>
    let targets := st.clients.filter fun c => notExcluded excl c && c.authenticated
    let delivered := targets.filter fun c => ctx.sendOk c.sockId
    let disconnected := targets.filter fun c => !ctx.sendOk c.sockId
    let st1 : ServerState :=
      { st with sent := st.sent ++ delivered.map fun c => (c.sockId, msg) }
    disconnected.foldl (fun s c => removeClientF ctx fuel s c) st1

/-- `SecureChatServer.remove_client` (fuelled): release the username (guarded
`set.remove`), delete the map entry (guarded `del`), broadcast the "left"
notification when — and only when — the removed connection's
`authenticated` flag is set, then close the socket.  Note the flag is read
from the `ClientConnection` object itself, which this method never mutates:
a second call on the same object behaves identically. -/
def removeClientF (ctx : SysCtx) : Nat → ServerState → ClientConnection → ServerState
  | 0, st, _ => st
  | fuel + 1, st, c =>
    let st1 : ServerState :=
      { st with usernames := st.usernames.erase c.username
                clients := st.clients.filter fun d => d.sockId != c.sockId }
    let st2 :=
      if c.authenticated then
        broadcastF ctx fuel
          (systemMessage ctx.now ("Usuario " ++ c.username ++ " ha abandonado el chat"))
          none st1
      else st1
    { st2 with closed := st2.closed ++ [c.sockId] }

end

/-- Fuel that covers every removal cascade reachable from `st`. -/
def fuelBound (st : ServerState) : Nat :=
  2 * st.clients.length + 4

/-- `SecureChatServer.broadcast_message`. -/
def broadcast_message (ctx : SysCtx) (msg : ChatMessage) (excl : Option Nat)
    (st : ServerState) : ServerState :=
  broadcastF ctx (fuelBound st) msg excl st

/-- `SecureChatServer.remove_client`. -/
def remove_client (ctx : SysCtx) (st : ServerState) (c : ClientConnection) :
    ServerState :=
  removeClientF ctx (fuelBound st) st c

/-- `SecureChatServer.send_to_client`: one `send`; on failure the client is
removed (the exception is caught, the method returns normally). -/
def send_to_client (ctx : SysCtx) (st : ServerState) (c : ClientConnection)
    (msg : ChatMessage) : ServerState :=
  if ctx.sendOk c.sockId then
    { st with sent := st.sent ++ [(c.sockId, msg)] }
  else
    remove_client ctx st c

/-! ## `server.py`: message handlers -/

/-- The room argument of the re-wrapped chat message:
`message.metadata.get('room', 'general') if message.metadata else 'general'`.
`none` models the `AttributeError` raised by `.get` when `metadata` is a
truthy non-dict (unreachable from `handle_client_message`, which only passes
messages whose frame passed `validate_message`). -/
def chatRoomOf (metadata : JsonValue) : Option JsonValue :=
  if metadata.truthy then
    match metadata with
    | .obj d => some ((d.lookup "room").getD (.str "general"))
    | _ => none
  else
    some (.str "general")

/-- `SecureChatServer.handle_chat_message`.  `none` models an escaped
exception (non-string content fed to `sanitize_content`, or a truthy
non-dict `metadata`; both are unreachable for validated frames and both
raise before any send happens). -/
def handle_chat_message (ctx : SysCtx) (st : ServerState) (c : ClientConnection)
    (msg : ChatMessage) : Option ServerState :=
  if !c.authenticated then
    some (send_to_client ctx st c
      (errorMessage ctx.now "NOT_AUTHENTICATED" "Debes autenticarte primero"))
  else
    match msg.content with
    | .str content =>
      let sanitized := sanitize_content ctx.isPrintable content
      match chatRoomOf msg.metadata with
      | none => none
      | some room =>
        let chat_msg := create_chat_message ctx.now c.username sanitized room
        let st1 := broadcast_message ctx chat_msg (some c.sockId) st
        some (send_to_client ctx st1 c chat_msg)
    | _ => none

/-- Rendering of a JSON value into an f-string (`f"Comando '{command}' no
reconocido"`).  Only the string case is ever exercised: no claim inspects
this text. -/
def jsonDisplay : JsonValue → String
  | .str s => s
  | _ => ""

/-- `SecureChatServer.handle_command_message`: `list_users`, `quit`, or an
`UNKNOWN_COMMAND` error.  The command is `message.content` compared against
the `CommandType` tag strings; it never raises. -/
def handle_command_message (ctx : SysCtx) (st : ServerState) (c : ClientConnection)
    (msg : ChatMessage) : ServerState :=
  if !c.authenticated then
    send_to_client ctx st c
      (errorMessage ctx.now "NOT_AUTHENTICATED" "Debes autenticarte primero")
  else if msg.content == .str "list_users" then
    send_to_client ctx st c
      (systemMessage ctx.now
        ("Usuarios conectados: " ++ String.intercalate ", " st.usernames))
  else if msg.content == .str "quit" then
    remove_client ctx st c
  else
    send_to_client ctx st c
      (errorMessage ctx.now "UNKNOWN_COMMAND"
        ("Comando \x27" ++ jsonDisplay msg.content ++ "\x27 no reconocido"))

/-- `SecureChatServer.handle_client_message` on one received frame
(`parsed` is the `json.loads` result of the frame, `none` = not JSON):
invalid frames get an `INVALID_MESSAGE` error; then `from_json` runs, and
any exception out of it or out of the chat handler is caught by the
`except` clause, which replies `PROCESSING_ERROR`; CHAT and COMMAND are
dispatched; every other type is logged and dropped. -/
def handle_client_message (ctx : SysCtx) (st : ServerState) (c : ClientConnection)
    (parsed : Option JsonValue) : ServerState :=
  if !validate_message parsed then
    send_to_client ctx st c
      (errorMessage ctx.now "INVALID_MESSAGE" "Mensaje con formato inválido")
  else
    match parsed with
    | none => st
    | some v =>
      match ChatMessage.from_json v with
      | none =>
        send_to_client ctx st c
          (errorMessage ctx.now "PROCESSING_ERROR" "Error procesando el mensaje")
      | some m =>
        match m.type with
        | .chat =>
          match handle_chat_message ctx st c m with
          | some st' => st'
          | none =>
            send_to_client ctx st c
              (errorMessage ctx.now "PROCESSING_ERROR" "Error procesando el mensaje")
        | .command => handle_command_message ctx st c m
        | _ => st

/-! ## `server.py`: authentication handshake -/

/-- `SecureChatServer.handle_client_authentication`.  `parsed` is the
`json.loads` result of the first client frame (`none` = not JSON; the case
where `recv` itself raises is handled by the enclosing `except` and returns
`False` before any of the checks below, so it is not modelled).  Returns
(success flag, state, connection object as the caller now sees it —
the Python method mutates the shared `ClientConnection` in place). -/
def handle_client_authentication (ctx : SysCtx) (st : ServerState)
    (c : ClientConnection) (parsed : Option JsonValue) :
    Bool × ServerState × ClientConnection :=
  let st1 := send_to_client ctx st c
    (systemMessage ctx.now "Por favor, ingresa tu nombre de usuario:")
  if !validate_message parsed then
    (false,
     send_to_client ctx st1 c
       (errorMessage ctx.now "INVALID_MESSAGE" "Mensaje de autenticación inválido"),
     c)
  else
    match parsed with
    | none => (false, st1, c)
    | some v =>
      match ChatMessage.from_json v with
      | none => (false, st1, c)
      | some m =>
        match m.sender with
        | .str sender =>
          let username := ctx.strip sender
          if username = "" then
            (false,
             send_to_client ctx st1 c
               (errorMessage ctx.now "INVALID_USERNAME"
                 "El nombre de usuario no puede estar vacío"),
             c)
          else if st1.usernames.contains username then
            (false,
             send_to_client ctx st1 c
               (errorMessage ctx.now "USERNAME_TAKEN"
                 ("El nombre \x27" ++ username ++ "\x27 ya está en uso")),
             c)
          else
            let c' : ClientConnection :=
              { c with username := username, authenticated := true }
            let st2 : ServerState :=
              { st1 with
                clients := st1.clients.map fun d =>
                  if d.sockId = c.sockId then c' else d
                usernames := namesAdd st1.usernames username }
            let st3 := broadcast_message ctx
              (systemMessage ctx.now
                ("Usuario " ++ username ++ " se ha unido al chat!"))
              none st2
            (true, st3, c')
        | _ => (false, st1, c)

/-- The connection-setup and authentication phase of
`SecureChatServer.client_handler`: register the fresh, unauthenticated
connection in `self.clients`, run the handshake, and on failure remove the
client and return (the handler never retries). -/
def client_handler_auth (ctx : SysCtx) (st0 : ServerState) (sockId : Nat)
    (parsed : Option JsonValue) : Bool × ServerState × ClientConnection :=
  let c : ClientConnection :=
    { sockId := sockId, username := "", authenticated := false, connected := true }
  let st : ServerState := { st0 with clients := st0.clients ++ [c] }
  match handle_client_authentication ctx st c parsed with
  | (true, st', c') => (true, st', c')
  | (false, st', _) => (false, remove_client ctx st' c, c)

/-! ## The registry invariant (spec §3, Session Registry) -/

/-- The 1:1 correspondence between the claimed-name set and the authenticated
entries of the session map: every authenticated session has a non-empty name
that is claimed, and every claimed name is held by exactly one authenticated
session.  (`usernames` models a Python set, so "appears exactly once in the
name set" is the `Nodup` conjunct.) -/
def registryInvB (st : ServerState) : Bool :=
  st.usernames.Nodup
  && (st.clients.all fun c =>
      !c.authenticated || (c.username != "" && st.usernames.contains c.username))
  && (st.usernames.all fun u =>
      (st.clients.filter fun c => c.authenticated && c.username == u).length == 1)

/-! ## Helper lemmas: what broadcast/removal can do to the state

`StateEvolves s₁ s₂` records the shape of every mutation the
broadcast/removal cascade performs: the send log and the close log only grow
at the end, and the client map and the name set only lose entries. -/

def StateEvolves (s1 s2 : ServerState) : Prop :=
  (∃ r, s2.sent = s1.sent ++ r)
  ∧ s2.clients.Sublist s1.clients
  ∧ s2.usernames.Sublist s1.usernames
  ∧ (∃ r, s2.closed = s1.closed ++ r)

theorem StateEvolves.rfl (s : ServerState) : StateEvolves s s :=
  ⟨⟨[], by simp⟩, List.Sublist.refl _, List.Sublist.refl _, ⟨[], by simp⟩⟩

theorem StateEvolves.trans {s1 s2 s3 : ServerState}
    (h12 : StateEvolves s1 s2) (h23 : StateEvolves s2 s3) : StateEvolves s1 s3 := by
  obtain ⟨⟨r1, hr1⟩, hc1, hu1, ⟨q1, hq1⟩⟩ := h12
  obtain ⟨⟨r2, hr2⟩, hc2, hu2, ⟨q2, hq2⟩⟩ := h23
  exact ⟨⟨r1 ++ r2, by simp [hr2, hr1]⟩, hc2.trans hc1, hu2.trans hu1,
    ⟨q1 ++ q2, by simp [hq2, hq1]⟩⟩

theorem evolves_foldl {g : ServerState → ClientConnection → ServerState}
    (hg : ∀ s c, StateEvolves s (g s c)) :
    ∀ (cs : List ClientConnection) (s : ServerState), StateEvolves s (cs.foldl g s) := by
  intro cs
  induction cs with
  | nil => intro s; exact StateEvolves.rfl s
  | cons c cs ih =>
    intro s
    exact (hg s c).trans (ih (g s c))

theorem evolves_mut (ctx : SysCtx) :
    ∀ fuel : Nat,
      (∀ msg excl st, StateEvolves st (broadcastF ctx fuel msg excl st))
      ∧ (∀ st c, StateEvolves st (removeClientF ctx fuel st c)) := by
  intro fuel
  induction fuel with
  | zero =>
    exact ⟨fun _ _ st => StateEvolves.rfl st, fun st _ => StateEvolves.rfl st⟩
  | succ f ih =>
    have happend : ∀ (s : ServerState) (r : List (Nat × ChatMessage)),
        StateEvolves s { s with sent := s.sent ++ r } :=
      fun s r => ⟨⟨r, Eq.refl _⟩, List.Sublist.refl _, List.Sublist.refl _, ⟨[], by simp⟩⟩
    have hclose : ∀ (s : ServerState) (n : Nat),
        StateEvolves s { s with closed := s.closed ++ [n] } :=
      fun s n => ⟨⟨[], by simp⟩, List.Sublist.refl _, List.Sublist.refl _, ⟨[n], Eq.refl _⟩⟩
    constructor
    · intro msg excl st
      simp only [broadcastF]
      exact (happend st _).trans (evolves_foldl (fun s c => ih.2 s c) _ _)
    · intro st c
      simp only [removeClientF]
      have h1 : StateEvolves st
          { st with usernames := st.usernames.erase c.username
                    clients := st.clients.filter fun d => d.sockId != c.sockId } :=
        ⟨⟨[], by simp⟩, List.filter_sublist _, List.erase_sublist _ _, ⟨[], by simp⟩⟩
      by_cases hauth : c.authenticated
      · simp only [hauth, if_true]
        exact (h1.trans (ih.1 _ _ _)).trans (hclose _ _)
      · simp only [hauth, if_false]
        exact h1.trans (hclose _ _)

theorem broadcastF_evolves (ctx : SysCtx) (fuel : Nat) (msg : ChatMessage)
    (excl : Option Nat) (st : ServerState) :
    StateEvolves st (broadcastF ctx fuel msg excl st) :=
  (evolves_mut ctx fuel).1 msg excl st

theorem removeClientF_evolves (ctx : SysCtx) (fuel : Nat) (st : ServerState)
    (c : ClientConnection) :
    StateEvolves st (removeClientF ctx fuel st c) :=
  (evolves_mut ctx fuel).2 st c

/-! ## Helper lemmas: closed forms when every send succeeds -/

theorem broadcastF_all_ok (ctx : SysCtx) (fuel : Nat) (msg : ChatMessage)
    (excl : Option Nat) (st : ServerState) (hf : 1 ≤ fuel)
    (h : ∀ d ∈ st.clients, ctx.sendOk d.sockId = true) :
    broadcastF ctx fuel msg excl st =
      { st with sent := st.sent ++ ((st.clients.filter fun c =>
          notExcluded excl c
            && c.authenticated).map fun c => (c.sockId, msg)) } := by
  obtain ⟨f, rfl⟩ : ∃ f, fuel = f + 1 := ⟨fuel - 1, by omega⟩
  simp only [broadcastF]
  have htg : ∀ c ∈ st.clients.filter fun c =>
      notExcluded excl c && c.authenticated,
      ctx.sendOk c.sockId = true :=
    fun c hc => h c (List.mem_of_mem_filter hc)
  have hdel : (st.clients.filter fun c =>
      notExcluded excl c
        && c.authenticated).filter (fun c => ctx.sendOk c.sockId) =
      st.clients.filter fun c =>
        notExcluded excl c
          && c.authenticated :=
    List.filter_eq_self.mpr htg
  have hdis : (st.clients.filter fun c =>
      notExcluded excl c
        && c.authenticated).filter (fun c => !ctx.sendOk c.sockId) = [] :=
    List.filter_eq_nil_iff.mpr (fun c hc => by simp [htg c hc])
  rw [hdel, hdis, List.foldl_nil]

theorem fuelBound_pos (st : ServerState) : 1 ≤ fuelBound st := by
  simp [fuelBound]

theorem broadcast_message_all_ok (ctx : SysCtx) (msg : ChatMessage)
    (excl : Option Nat) (st : ServerState)
    (h : ∀ d ∈ st.clients, ctx.sendOk d.sockId = true) :
    broadcast_message ctx msg excl st =
      { st with sent := st.sent ++ ((st.clients.filter fun c =>
          notExcluded excl c
            && c.authenticated).map fun c => (c.sockId, msg)) } :=
  broadcastF_all_ok ctx _ msg excl st (fuelBound_pos st) h

/-- `remove_client` on a connection whose `authenticated` flag is unset:
no "left" notification is broadcast. -/
theorem remove_client_not_auth (ctx : SysCtx) (st : ServerState)
    (c : ClientConnection) (hauth : c.authenticated = false) :
    remove_client ctx st c =
      { st with usernames := st.usernames.erase c.username
                clients := st.clients.filter fun d => d.sockId != c.sockId
                closed := st.closed ++ [c.sockId] } := by
  have hb : fuelBound st = (2 * st.clients.length + 3) + 1 := rfl
  rw [remove_client, hb]
  simp only [removeClientF, hauth, Bool.false_eq_true, if_false]

/-- `remove_client` on a connection whose `authenticated` flag is set, when
every send succeeds: the map entry and the name go, the socket closes, and
the "left" notification reaches every remaining authenticated client. -/
theorem remove_client_auth_all_ok (ctx : SysCtx) (st : ServerState)
    (c : ClientConnection) (hauth : c.authenticated = true)
    (h : ∀ d ∈ st.clients, ctx.sendOk d.sockId = true) :
    remove_client ctx st c =
      { clients := st.clients.filter fun d => d.sockId != c.sockId
        usernames := st.usernames.erase c.username
        sent := st.sent ++
          (((st.clients.filter fun d => d.sockId != c.sockId).filter
              fun d => d.authenticated).map fun d =>
            (d.sockId, systemMessage ctx.now
              ("Usuario " ++ c.username ++ " ha abandonado el chat")))
        closed := st.closed ++ [c.sockId] } := by
  have hb : fuelBound st = (2 * st.clients.length + 3) + 1 := rfl
  rw [remove_client, hb]
  simp only [removeClientF, hauth, if_true]
  rw [broadcastF_all_ok ctx _ _ none _ (by omega)
    (fun d hd => h d (List.mem_of_mem_filter hd))]
  simp [notExcluded]

/-! ## Helper lemmas: removal really removes -/

theorem removeClientF_clears (ctx : SysCtx) (fuel : Nat) (st : ServerState)
    (c : ClientConnection) (hf : 1 ≤ fuel) (hnd : st.usernames.Nodup) :
    (∀ d ∈ (removeClientF ctx fuel st c).clients, d.sockId ≠ c.sockId)
    ∧ c.username ∉ (removeClientF ctx fuel st c).usernames
    ∧ c.sockId ∈ (removeClientF ctx fuel st c).closed := by
  obtain ⟨f, rfl⟩ : ∃ f, fuel = f + 1 := ⟨fuel - 1, by omega⟩
  simp only [removeClientF]
  have hst1 : ∀ d ∈ st.clients.filter fun d => d.sockId != c.sockId,
      d.sockId ≠ c.sockId := by
    intro d hd
    simpa using List.of_mem_filter hd
  have hu1 : c.username ∉ st.usernames.erase c.username := by
    intro hm
    exact absurd rfl ((hnd.mem_erase_iff.mp hm).1)
  by_cases hauth : c.authenticated
  · simp only [hauth, if_true]
    obtain ⟨_, hcl, hun, _⟩ := broadcastF_evolves ctx f
      (systemMessage ctx.now ("Usuario " ++ c.username ++ " ha abandonado el chat"))
      none { st with usernames := st.usernames.erase c.username
                     clients := st.clients.filter fun d => d.sockId != c.sockId }
    exact ⟨fun d hd => hst1 d (hcl.subset hd), fun hm => hu1 (hun.subset hm),
      List.mem_append_right _ (List.mem_singleton_self _)⟩
  · simp only [hauth, if_false]
    exact ⟨hst1, hu1, List.mem_append_right _ (List.mem_singleton_self _)⟩

theorem foldl_remove_clears (ctx : SysCtx) (fuel : Nat) (hf : 1 ≤ fuel) :
    ∀ (cs : List ClientConnection) (s : ServerState), s.usernames.Nodup →
      ∀ c ∈ cs,
        (∀ d ∈ (cs.foldl (fun s c => removeClientF ctx fuel s c) s).clients,
          d.sockId ≠ c.sockId)
        ∧ c.username ∉ (cs.foldl (fun s c => removeClientF ctx fuel s c) s).usernames
        ∧ c.sockId ∈ (cs.foldl (fun s c => removeClientF ctx fuel s c) s).closed := by
  intro cs
  induction cs with
  | nil =>
    intro s _ c hc
    cases hc
  | cons x xs ih =>
    intro s hnd c hc
    rw [List.foldl_cons]
    rcases List.mem_cons.mp hc with rfl | hc'
    · have h1 := removeClientF_clears ctx fuel s c hf hnd
      obtain ⟨_, hcl, hun, ⟨q, hq⟩⟩ :=
        evolves_foldl (fun s c => removeClientF_evolves ctx fuel s c) xs
          (removeClientF ctx fuel s c)
      refine ⟨fun d hd => h1.1 d (hcl.subset hd),
        fun hm => h1.2.1 (hun.subset hm), ?_⟩
      rw [hq]
      exact List.mem_append_left _ h1.2.2
    · obtain ⟨_, _, hun, _⟩ := removeClientF_evolves ctx fuel s x
      exact ih (removeClientF ctx fuel s x) (hnd.sublist hun) c hc'

/-! ## Helper lemmas: counting deliveries -/

/-- Number of copies of message `m` delivered to socket `dest` in a send
log. -/
def deliveryCount (log : List (Nat × ChatMessage)) (dest : Nat)
    (m : ChatMessage) : Nat :=
  (log.filter fun e => e.1 == dest && e.2 == m).length

theorem deliveryCount_append (xs ys : List (Nat × ChatMessage)) (dest : Nat)
    (m : ChatMessage) :
    deliveryCount (xs ++ ys) dest m =
      deliveryCount xs dest m + deliveryCount ys dest m := by
  simp [deliveryCount]

theorem deliveryCount_map (l : List ClientConnection) (m : ChatMessage)
    (a : Nat) :
    deliveryCount (l.map fun c => (c.sockId, m)) a m =
      (l.filter fun c => c.sockId == a).length := by
  induction l with
  | nil => rfl
  | cons x xs ih =>
    by_cases h : x.sockId = a <;>
      simp [deliveryCount, List.filter_cons, h] at ih ⊢ <;> omega

theorem deliveryCount_single (n : Nat) (m : ChatMessage) (a : Nat) :
    deliveryCount [(n, m)] a m = if n = a then 1 else 0 := by
  by_cases h : n = a <;> simp [deliveryCount, List.filter_cons, h]

theorem sockId_inj {l : List ClientConnection}
    (hnd : (l.map ClientConnection.sockId).Nodup) :
    ∀ c1 ∈ l, ∀ c2 ∈ l, c1.sockId = c2.sockId → c1 = c2 :=
  fun _ h1 _ h2 h => List.inj_on_of_nodup_map hnd h1 h2 h

/-- In a client list with pairwise-distinct socket ids, the entries whose
socket id matches `d`'s and that satisfy `p` are exactly `d` itself when
`p d`, and nobody otherwise. -/
theorem filter_sockId_length (l : List ClientConnection)
    (hnd : (l.map ClientConnection.sockId).Nodup) (d : ClientConnection)
    (hd : d ∈ l) (p : ClientConnection → Bool) :
    (l.filter fun c => c.sockId == d.sockId && p c).length =
      if p d then 1 else 0 := by
  induction l with
  | nil => cases hd
  | cons x xs ih =>
    simp only [List.map_cons, List.nodup_cons] at hnd
    rcases List.mem_cons.mp hd with rfl | hd'
    · have htail : (xs.filter fun c => c.sockId == d.sockId && p c) = [] := by
        refine List.filter_eq_nil_iff.mpr fun c hc => ?_
        have : c.sockId ≠ d.sockId := by
          intro he
          exact hnd.1 (he ▸ List.mem_map_of_mem ClientConnection.sockId hc)
        simp [this]
      by_cases hp : p d <;> simp [List.filter_cons, hp, htail]
    · have hx : x.sockId ≠ d.sockId := by
        intro he
        exact hnd.1 (he ▸ List.mem_map_of_mem ClientConnection.sockId hd')
      simp [List.filter_cons, hx, ih hnd.2 hd']

/-! ## Claim C8: sanitization idempotence and length bound -/

/-- A prefix of a filtered list is unchanged by filtering it again. -/
theorem take_filter_self {a : Type} (p : a → Bool) (l : List a) (n : Nat) :
    ((l.filter p).take n).filter p = (l.filter p).take n :=
  List.filter_eq_self.mpr fun _ hx => List.of_mem_filter (List.mem_of_mem_take hx)

/-- C8.  For every string `s` (and every printability classification),
`sanitize_content` removes the non-printable characters other than newline
and tab, truncates to 516 characters — so the result's length is at most
516 — and is idempotent: sanitizing twice equals sanitizing once. -/
theorem C8_sanitize_idempotent_bounded (isPr : Char → Bool) (s : String) :
    sanitize_content isPr (sanitize_content isPr s) = sanitize_content isPr s
    ∧ (sanitize_content isPr s).length ≤ 516 := by
  obtain ⟨l⟩ := s
  have h1 : sanitize_content isPr ⟨l⟩ =
      String.mk ((l.filter fun ch => isPr ch || ch == '\n' || ch == '\t').take 516) :=
    rfl
  have h2 : sanitize_content isPr
      (String.mk ((l.filter fun ch => isPr ch || ch == '\n' || ch == '\t').take 516)) =
      String.mk ((((l.filter fun ch =>
          isPr ch || ch == '\n' || ch == '\t').take 516).filter fun ch =>
            isPr ch || ch == '\n' || ch == '\t').take 516) :=
    rfl
  have h3 : (String.mk ((l.filter fun ch =>
      isPr ch || ch == '\n' || ch == '\t').take 516)).length =
      ((l.filter fun ch => isPr ch || ch == '\n' || ch == '\t').take 516).length :=
    rfl
  constructor
  · rw [h1, h2, take_filter_self, List.take_take, min_self]
  · rw [h1, h3]
    exact List.length_take_le 516 _

/-! ## Claim C2: totality and exactness of frame validation

The claim as frozen says a frame whose `timestamp` is not numeric must be
rejected.  That is false on the code: `isinstance(x, (int, float))` accepts
Python booleans (`bool` is a subclass of `int`), so the JSON frame
`{"type": "chat", "timestamp": true, "sender": "alice", "content": "hola"}`
— whose timestamp is a boolean, not a number — passes `validate_message`.
The amended claim replaces "timestamp is not numeric" by "timestamp is
neither numeric nor boolean"; everything else in the claim stands. -/

/-- A concrete frame with the four required fields, a valid type tag, string
sender and content, and a boolean (non-numeric) timestamp. -/
def boolTimestampFrame : JsonFields :=
  .cons "type" (.str "chat")
    (.cons "timestamp" (.bool true)
      (.cons "sender" (.str "alice")
        (.cons "content" (.str "hola") .nil)))

/-- C2 counterexample: the frame whose `timestamp` field is the JSON boolean
`true` — not a number — is accepted by `validate_message`, so the claim's
"if … timestamp is not numeric … then validation returns a failure" is
false on the code. -/
theorem C2_counterexample :
    validate_message (some (.obj boolTimestampFrame)) = true
    ∧ boolTimestampFrame.lookup "timestamp" = some (.bool true) := by
  exact ⟨by decide, by decide⟩

/-- The acceptance condition of the amended claim, stated in the claim's own
terms: the input parses to a JSON object, the four required fields are all
present, the type is one of the six enumerated tags, the timestamp is
numeric or boolean, and sender and content are strings. -/
def claimC2Accepts (parsed : Option JsonValue) : Prop :=
  ∃ data : JsonFields, parsed = some (.obj data)
    ∧ data.hasKey "type" ∧ data.hasKey "timestamp"
    ∧ data.hasKey "sender" ∧ data.hasKey "content"
    ∧ (∃ t, data.lookup "type" = some (.str t) ∧ t ∈ messageTypeTags)
    ∧ ((∃ n, data.lookup "timestamp" = some (.num n))
        ∨ (∃ b, data.lookup "timestamp" = some (.bool b)))
    ∧ (∃ s, data.lookup "sender" = some (.str s))
    ∧ (∃ s, data.lookup "content" = some (.str s))

/-- C2 (amended).  Validation is a total function of the parse result — a
non-JSON input (`none`) and every JSON value failing any check yield
`false`, never a fault, and no envelope is constructed — and it accepts an
input exactly when the input is a JSON object carrying the four required
fields, a type inside the six-value enumeration, a numeric-or-boolean
timestamp, and string sender and content. -/
theorem C2_validate_exact (parsed : Option JsonValue) :
    validate_message parsed = true ↔ claimC2Accepts parsed := by
  constructor
  · intro h
    match parsed with
    | none => simp [validate_message] at h
    | some (.bool _) | some (.num _) | some (.str _)
    | some (.arr _) | some .null => simp [validate_message] at h
    | some (.obj data) =>
      simp only [validate_message, Bool.and_eq_true, List.all_eq_true,
        List.mem_cons, List.not_mem_nil, or_false] at h
      obtain ⟨⟨⟨⟨hreq, hty⟩, hts⟩, hsn⟩, hcn⟩ := h
      refine ⟨data, rfl, ?_, ?_, ?_, ?_, ?_, ?_, ?_, ?_⟩
      · exact hreq "type" (by simp)
      · exact hreq "timestamp" (by simp)
      · exact hreq "sender" (by simp)
      · exact hreq "content" (by simp)
      · rcases hl : data.lookup "type" with _ | tv
        · rw [hl] at hty; simp at hty
        · rw [hl] at hty
          cases tv <;> simp at hty
          case str t => exact ⟨t, rfl, by simpa using hty⟩
      · rcases hl : data.lookup "timestamp" with _ | tv
        · rw [hl] at hts; simp at hts
        · rw [hl] at hts
          cases tv <;> simp at hts
          case num n => exact Or.inl ⟨n, rfl⟩
          case bool b => exact Or.inr ⟨b, rfl⟩
      · rcases hl : data.lookup "sender" with _ | tv
        · rw [hl] at hsn; simp at hsn
        · rw [hl] at hsn
          cases tv <;> simp at hsn
          case str t => exact ⟨t, rfl⟩
      · rcases hl : data.lookup "content" with _ | tv
        · rw [hl] at hcn; simp at hcn
        · rw [hl] at hcn
          cases tv <;> simp at hcn
          case str t => exact ⟨t, rfl⟩
  · rintro ⟨data, rfl, h1, h2, h3, h4, ⟨t, hty, htin⟩, hts, ⟨sn, hsn⟩, ⟨cn, hcn⟩⟩
    simp only [validate_message, Bool.and_eq_true, List.all_eq_true,
      List.mem_cons, List.not_mem_nil, or_false]
    refine ⟨⟨⟨⟨?_, ?_⟩, ?_⟩, ?_⟩, ?_⟩
    · rintro f (rfl | rfl | rfl | rfl) <;> assumption
    · rw [hty]; simpa using htin
    · rcases hts with ⟨n, hn⟩ | ⟨b, hb⟩
      · rw [hn]
      · rw [hb]
    · rw [hsn]
    · rw [hcn]

/-! ## Claim C7: serialization round-trip -/

/-- `MessageType(...)` inverts `.value`. -/
theorem messageTypeOfValue_value (ty : MessageType) :
    messageTypeOfValue (.str ty.value) = some ty := by
  cases ty <;> rfl

/-- C7.  For every valid envelope — numeric timestamp, string sender and
content, metadata either absent (`null`) or a mapping — deserializing its
serialization yields the envelope back unchanged, and the serialized form
carries the message type as its string tag. -/
theorem C7_round_trip (m : ChatMessage)
    (hts : ∃ n, m.timestamp = .num n)
    (hsn : ∃ s, m.sender = .str s)
    (hcn : ∃ s, m.content = .str s)
    (hmd : m.metadata = .null ∨ ∃ d, m.metadata = .obj d) :
    ChatMessage.from_json (ChatMessage.to_json m) = some m
    ∧ (∃ data, ChatMessage.to_json m = .obj data
        ∧ data.lookup "type" = some (.str m.type.value)) := by
  constructor
  · cases m with
    | mk ty ts sn cn md =>
      cases ty <;>
        simp [ChatMessage.to_json, ChatMessage.from_json, JsonFields.lookup,
          JsonFields.hasKey, JsonFields.keys, chatMessageFieldNames,
          messageTypeOfValue, MessageType.value]
  · exact ⟨_, rfl, by simp [ChatMessage.to_json, JsonFields.lookup]⟩

/-- C7 witness: a concrete valid envelope round-trips. -/
theorem C7_round_trip_witness :
    ChatMessage.from_json
        (ChatMessage.to_json (create_chat_message 7 "alice" "hola" (.str "general"))) =
      some (create_chat_message 7 "alice" "hola" (.str "general"))
    ∧ (∃ data,
        ChatMessage.to_json (create_chat_message 7 "alice" "hola" (.str "general")) =
          .obj data
        ∧ data.lookup "type" =
            some (.str (create_chat_message 7 "alice" "hola" (.str "general")).type.value)) :=
  C7_round_trip (create_chat_message 7 "alice" "hola" (.str "general"))
    ⟨7, rfl⟩ ⟨"alice", rfl⟩ ⟨"hola", rfl⟩
    (Or.inr ⟨.cons "room" (.str "general") .nil, rfl⟩)

/-! ## Claim C10: validation does not guarantee deserialization -/

/-- C10.  A JSON object with the four required fields of the right kinds plus
any key outside the five constructor fields passes `validate_message`, yet
`ChatMessage.from_json` fails on it (the unknown key is forwarded to the
dataclass constructor, which raises `TypeError`), so `handle_client_message`
answers such a frame with `PROCESSING_ERROR` — not `INVALID_MESSAGE`. -/
theorem C10_extra_key_processing_error (ctx : SysCtx) (st : ServerState)
    (c : ClientConnection) (ty : MessageType) (ts : Int) (sn cn k : String)
    (v : JsonValue)
    (hk : chatMessageFieldNames.contains k = false)
    (hsend : ctx.sendOk c.sockId = true) :
    validate_message (some (.obj (.cons "type" (.str ty.value)
      (.cons "timestamp" (.num ts) (.cons "sender" (.str sn)
        (.cons "content" (.str cn) (.cons k v .nil))))))) = true
    ∧ ChatMessage.from_json (.obj (.cons "type" (.str ty.value)
        (.cons "timestamp" (.num ts) (.cons "sender" (.str sn)
          (.cons "content" (.str cn) (.cons k v .nil)))))) = none
    ∧ handle_client_message ctx st c (some (.obj (.cons "type" (.str ty.value)
        (.cons "timestamp" (.num ts) (.cons "sender" (.str sn)
          (.cons "content" (.str cn) (.cons k v .nil))))))) =
      { st with sent := st.sent ++
          [(c.sockId, errorMessage ctx.now "PROCESSING_ERROR"
            "Error procesando el mensaje")] } := by
  have hval : validate_message (some (.obj (.cons "type" (.str ty.value)
      (.cons "timestamp" (.num ts) (.cons "sender" (.str sn)
        (.cons "content" (.str cn) (.cons k v .nil))))))) = true := by
    cases ty <;>
      simp [validate_message, JsonFields.lookup, JsonFields.hasKey,
        MessageType.value, messageTypeTags]
  have hfrom : ChatMessage.from_json (.obj (.cons "type" (.str ty.value)
      (.cons "timestamp" (.num ts) (.cons "sender" (.str sn)
        (.cons "content" (.str cn) (.cons k v .nil)))))) = none := by
    have hk2 : k ∉ chatMessageFieldNames := by simpa using hk
    simp [ChatMessage.from_json, JsonFields.lookup, JsonFields.keys,
      JsonFields.hasKey, messageTypeOfValue_value, hk2]
  refine ⟨hval, hfrom, ?_⟩
  simp [handle_client_message, hval, hfrom, send_to_client, hsend]

/-- Kernel-computable ASCII whitespace strip, standing in for Python's
`str.strip` in concrete scenarios (they agree on all-ASCII input). -/
def asciiStrip (s : String) : String :=
  String.mk (((s.toList.dropWhile fun ch =>
    ch == ' ' || ch == '\t' || ch == '\n' || ch == '\r').reverse.dropWhile
      fun ch => ch == ' ' || ch == '\t' || ch == '\n' || ch == '\r').reverse)

/-- A concrete runtime context for witnesses: every send succeeds, the clock
reads 0, and printability is the ASCII range. -/
def witCtx : SysCtx :=
  { sendOk := fun _ => true
    now := 0
    isPrintable := fun ch => 32 ≤ ch.toNat && ch.toNat ≤ 126
    strip := asciiStrip }

/-- C10 witness: the concrete frame
`{"type":"chat","timestamp":0,"sender":"alice","content":"hola","extra":null}`
is answered with exactly one `PROCESSING_ERROR` reply. -/
theorem C10_extra_key_processing_error_witness :
    handle_client_message witCtx ⟨[], [], [], []⟩ ⟨1, "alice", true, true⟩
        (some (.obj (.cons "type" (.str "chat")
          (.cons "timestamp" (.num 0) (.cons "sender" (.str "alice")
            (.cons "content" (.str "hola")
              (.cons "extra" .null .nil))))))) =
      { clients := [], usernames := []
        sent := [(1, errorMessage 0 "PROCESSING_ERROR" "Error procesando el mensaje")]
        closed := [] } := by
  have h := C10_extra_key_processing_error witCtx ⟨[], [], [], []⟩
    ⟨1, "alice", true, true⟩ .chat 0 "alice" "hola" "extra" .null (by decide) rfl
  simpa using h.2.2

/-! ## Claim C5: the two-phase broadcast algorithm -/

/-- C5.  The broadcast is two-phase.  (1) The sweep phase runs over the
point-in-time snapshot `st.clients` and no removal happens before it
completes: the first deliveries appended to the send log are exactly one
copy for every non-excluded authenticated session whose send succeeds, as
computed from the *initial* registry.  (2) Every session collected during
the sweep (non-excluded, authenticated, send failed) ends up removed: its
socket id is gone from the session map, its name is released from the
claimed-name set, and its stream is closed.  (3) The removal broadcasts a
"left" SYSTEM notification if and only if the removed session had been
authenticated: an unauthenticated removal sends nothing, an authenticated
removal delivers the "left" notification to the remaining live
authenticated sessions. -/
theorem C5_broadcast_two_phase (ctx : SysCtx) (msg : ChatMessage)
    (excl : Option Nat) (st : ServerState) (hnd : st.usernames.Nodup) :
    (∃ rest, (broadcast_message ctx msg excl st).sent =
        st.sent ++ (((st.clients.filter fun c => notExcluded excl c
            && c.authenticated).filter fun c => ctx.sendOk c.sockId).map
          fun c => (c.sockId, msg)) ++ rest)
    ∧ (∀ c ∈ (st.clients.filter fun c => notExcluded excl c
          && c.authenticated).filter fun c => !ctx.sendOk c.sockId,
        (∀ d ∈ (broadcast_message ctx msg excl st).clients, d.sockId ≠ c.sockId)
        ∧ c.username ∉ (broadcast_message ctx msg excl st).usernames
        ∧ c.sockId ∈ (broadcast_message ctx msg excl st).closed)
    ∧ (∀ (st' : ServerState) (c' : ClientConnection), c'.authenticated = false →
        (remove_client ctx st' c').sent = st'.sent)
    ∧ (∀ (st' : ServerState) (c' : ClientConnection), c'.authenticated = true →
        (∀ d ∈ st'.clients, ctx.sendOk d.sockId = true) →
        (remove_client ctx st' c').sent = st'.sent ++
          (((st'.clients.filter fun d => d.sockId != c'.sockId).filter
              fun d => d.authenticated).map fun d =>
            (d.sockId, systemMessage ctx.now
              ("Usuario " ++ c'.username ++ " ha abandonado el chat")))) := by
  have hb : fuelBound st = (2 * st.clients.length + 3) + 1 := rfl
  refine ⟨?_, ?_, ?_, ?_⟩
  · rw [broadcast_message, hb]
    simp only [broadcastF]
    obtain ⟨⟨rest, hrest⟩, _, _, _⟩ :=
      evolves_foldl (fun s c => removeClientF_evolves ctx (2 * st.clients.length + 3) s c)
        ((st.clients.filter fun c => notExcluded excl c && c.authenticated).filter
          fun c => !ctx.sendOk c.sockId)
        { st with sent := st.sent ++ (((st.clients.filter fun c =>
            notExcluded excl c && c.authenticated).filter
              fun c => ctx.sendOk c.sockId).map fun c => (c.sockId, msg)) }
    exact ⟨rest, by rw [hrest]⟩
  · intro c hc
    rw [broadcast_message, hb]
    simp only [broadcastF]
    exact foldl_remove_clears ctx (2 * st.clients.length + 3) (by omega) _ _
      (by simpa using hnd) c hc
  · intro st' c' hauth
    rw [remove_client_not_auth ctx st' c' hauth]
  · intro st' c' hauth hsend
    rw [remove_client_auth_all_ok ctx st' c' hauth hsend]

/-- C5 witness: two authenticated clients, one healthy (socket 1) and one
whose socket is dead (socket 2), no excluded sender. -/
def deadCtx : SysCtx :=
  { sendOk := fun n => n != 2
    now := 0
    isPrintable := fun ch => 32 ≤ ch.toNat && ch.toNat ≤ 126
    strip := asciiStrip }

theorem C5_broadcast_two_phase_witness :
    (∃ rest, (broadcast_message deadCtx (systemMessage 0 "hola") none
        ⟨[⟨1, "alice", true, true⟩, ⟨2, "bob", true, true⟩],
          ["alice", "bob"], [], []⟩).sent =
        [] ++ ((([⟨1, "alice", true, true⟩, ⟨2, "bob", true, true⟩].filter
            fun c => notExcluded none c && c.authenticated).filter
              fun c => deadCtx.sendOk c.sockId).map
          fun c => (c.sockId, systemMessage 0 "hola")) ++ rest)
    ∧ (∀ c ∈ ([⟨1, "alice", true, true⟩,
          ⟨2, "bob", true, true⟩].filter fun c => notExcluded none c
            && c.authenticated).filter fun c => !deadCtx.sendOk c.sockId,
        (∀ d ∈ (broadcast_message deadCtx (systemMessage 0 "hola") none
            ⟨[⟨1, "alice", true, true⟩, ⟨2, "bob", true, true⟩],
              ["alice", "bob"], [], []⟩).clients, d.sockId ≠ c.sockId)
        ∧ c.username ∉ (broadcast_message deadCtx (systemMessage 0 "hola") none
            ⟨[⟨1, "alice", true, true⟩, ⟨2, "bob", true, true⟩],
              ["alice", "bob"], [], []⟩).usernames
        ∧ c.sockId ∈ (broadcast_message deadCtx (systemMessage 0 "hola") none
            ⟨[⟨1, "alice", true, true⟩, ⟨2, "bob", true, true⟩],
              ["alice", "bob"], [], []⟩).closed) := by
  have h := C5_broadcast_two_phase deadCtx (systemMessage 0 "hola") none
    ⟨[⟨1, "alice", true, true⟩, ⟨2, "bob", true, true⟩], ["alice", "bob"], [], []⟩
    (by decide)
  exact ⟨h.1, h.2.1⟩

/-! ## Claim C9: client removal is not idempotent for the "left" broadcast -/

/-- Filtering a sub-filtered client list down to one socket id: with
pairwise-distinct socket ids, session `d`'s entry survives iff `p d`. -/
theorem filter_then_sockId_length (l : List ClientConnection)
    (hnd : (l.map ClientConnection.sockId).Nodup) (d : ClientConnection)
    (hd : d ∈ l) (p : ClientConnection → Bool) :
    ((l.filter p).filter fun x => x.sockId == d.sockId).length =
      if p d then 1 else 0 := by
  rw [List.filter_filter]
  exact filter_sockId_length l hnd d hd p

/-- C9.  The `quit` command path calls `remove_client`, which never clears
the connection object's `authenticated` flag and broadcasts the "left"
notification on *every* call for a flagged connection, even when the session
has already left the map and name set.  Since the connection handler's
cleanup calls `remove_client` a second time after the `quit` handler already
did, every other live authenticated session receives the "left" SYSTEM
notification exactly twice for one departure. -/
theorem C9_remove_client_not_idempotent (ctx : SysCtx) (st : ServerState)
    (c : ClientConnection) (msg : ChatMessage)
    (hsend : ∀ n, ctx.sendOk n = true)
    (hnd : (st.clients.map ClientConnection.sockId).Nodup)
    (hauth : c.authenticated = true)
    (hquit : msg.content = .str "quit")
    (d : ClientConnection) (hd : d ∈ st.clients)
    (hdauth : d.authenticated = true) (hne : d.sockId ≠ c.sockId) :
    handle_command_message ctx st c msg = remove_client ctx st c
    ∧ deliveryCount
        ((remove_client ctx (remove_client ctx st c) c).sent.drop st.sent.length)
        d.sockId
        (systemMessage ctx.now ("Usuario " ++ c.username ++ " ha abandonado el chat"))
      = 2 := by
  constructor
  · have h1 : ((JsonValue.str "quit") == (.str "list_users")) = false := by decide
    have h2 : ((JsonValue.str "quit") == (.str "quit")) = true := by decide
    simp [handle_command_message, hauth, hquit, h1, h2]
  · rw [remove_client_auth_all_ok ctx st c hauth (fun x _ => hsend x.sockId)]
    rw [remove_client_auth_all_ok ctx _ c hauth (fun x _ => hsend x.sockId)]
    have hff : ((st.clients.filter fun x => x.sockId != c.sockId).filter
        fun x => x.sockId != c.sockId) =
        st.clients.filter fun x => x.sockId != c.sockId := by
      apply List.filter_eq_self.mpr
      intro x hx
      exact (List.mem_filter.mp hx).2
    simp only [hff, List.append_assoc, List.drop_left]
    rw [deliveryCount_append, deliveryCount_map]
    have hsub : ((st.clients.filter fun x =>
        x.sockId != c.sockId).map ClientConnection.sockId).Nodup :=
      List.Nodup.sublist ((List.filter_sublist _).map _) hnd
    have hdmem : d ∈ st.clients.filter fun x => x.sockId != c.sockId :=
      List.mem_filter.mpr ⟨hd, by simp [hne]⟩
    rw [filter_then_sockId_length _ hsub d hdmem]
    simp [hdauth]

/-- C9 witness: "bob" (socket 1) quits; "carol" (socket 2) gets the "left"
notification twice when `remove_client` runs the second time from the
connection handler's cleanup. -/
theorem C9_remove_client_not_idempotent_witness :
    handle_command_message witCtx
        ⟨[⟨1, "bob", true, true⟩, ⟨2, "carol", true, true⟩], ["bob", "carol"], [], []⟩
        ⟨1, "bob", true, true⟩
        { type := .command, timestamp := .num 0, sender := .str "bob"
          content := .str "quit", metadata := .null } =
      remove_client witCtx
        ⟨[⟨1, "bob", true, true⟩, ⟨2, "carol", true, true⟩], ["bob", "carol"], [], []⟩
        ⟨1, "bob", true, true⟩
    ∧ deliveryCount
        ((remove_client witCtx (remove_client witCtx
            ⟨[⟨1, "bob", true, true⟩, ⟨2, "carol", true, true⟩], ["bob", "carol"], [], []⟩
            ⟨1, "bob", true, true⟩) ⟨1, "bob", true, true⟩).sent.drop
          ([] : List (Nat × ChatMessage)).length)
        2 (systemMessage witCtx.now ("Usuario " ++ "bob" ++ " ha abandonado el chat"))
      = 2 :=
  C9_remove_client_not_idempotent witCtx
    ⟨[⟨1, "bob", true, true⟩, ⟨2, "carol", true, true⟩], ["bob", "carol"], [], []⟩
    ⟨1, "bob", true, true⟩
    { type := .command, timestamp := .num 0, sender := .str "bob"
      content := .str "quit", metadata := .null }
    (fun _ => rfl) (by decide) rfl rfl
    ⟨2, "carol", true, true⟩ (by decide) rfl (by decide)

/-! ## Claim C1: exact fan-out of a chat message -/

/-- The fresh envelope `handle_chat_message` broadcasts: a CHAT message
stamped with the session's display name, carrying the sanitized content, in
the room named by the incoming message's metadata (defaulting to
"general"). -/
def rewrappedChat (ctx : SysCtx) (c : ClientConnection) (msg : ChatMessage)
    (content : String) : ChatMessage :=
  create_chat_message ctx.now c.username
    (sanitize_content ctx.isPrintable content)
    ((chatRoomOf msg.metadata).getD (.str "general"))

/-- C1.  A CHAT envelope from an authenticated session `c` is sanitized and
re-wrapped as `rewrappedChat`; when every send succeeds, the registry is
untouched and the send log grows by exactly one copy of the re-wrapped
envelope per *other* authenticated session plus exactly one echo copy to
`c`: every authenticated session in the registry (echo included) receives
exactly one copy, and every unauthenticated one receives none. -/
theorem C1_chat_rewrap_broadcast (ctx : SysCtx) (st : ServerState)
    (c : ClientConnection) (msg : ChatMessage) (content : String)
    (hsend : ∀ n, ctx.sendOk n = true)
    (hnd : (st.clients.map ClientConnection.sockId).Nodup)
    (hc : c ∈ st.clients) (hauth : c.authenticated = true)
    (hcontent : msg.content = .str content)
    (hmeta : msg.metadata = .null ∨ ∃ mdata, msg.metadata = .obj mdata) :
    ∃ st', handle_chat_message ctx st c msg = some st'
      ∧ st'.clients = st.clients
      ∧ st'.usernames = st.usernames
      ∧ st'.sent = st.sent ++
          (((st.clients.filter fun x => x.sockId != c.sockId && x.authenticated).map
            fun x => (x.sockId, rewrappedChat ctx c msg content))
            ++ [(c.sockId, rewrappedChat ctx c msg content)])
      ∧ ∀ x ∈ st.clients,
          deliveryCount (st'.sent.drop st.sent.length) x.sockId
            (rewrappedChat ctx c msg content) =
          if x.authenticated then 1 else 0 := by
  have hroom : chatRoomOf msg.metadata =
      some ((chatRoomOf msg.metadata).getD (.str "general")) := by
    rcases hmeta with hnull | ⟨mdata, hobj⟩
    · rw [hnull]; rfl
    · rw [hobj]
      cases mdata <;> simp [chatRoomOf, JsonValue.truthy, JsonFields.isEmpty]
  have hexcl : (st.clients.filter fun x => notExcluded (some c.sockId) x
      && x.authenticated) =
      st.clients.filter fun x => x.sockId != c.sockId && x.authenticated := by
    apply List.filter_congr
    intro x _
    simp [notExcluded]
  have hstep : handle_chat_message ctx st c msg = some
      { st with sent := st.sent ++
          (((st.clients.filter fun x => x.sockId != c.sockId && x.authenticated).map
            fun x => (x.sockId, rewrappedChat ctx c msg content))
            ++ [(c.sockId, rewrappedChat ctx c msg content)]) } := by
    rw [handle_chat_message, hauth, hcontent]
    simp only [Bool.not_true, Bool.false_eq_true, if_false]
    rw [hroom]
    dsimp only
    rw [broadcast_message_all_ok ctx _ _ _ (fun x _ => hsend x.sockId)]
    rw [hexcl]
    simp [send_to_client, hsend c.sockId, rewrappedChat]
  refine ⟨_, hstep, rfl, rfl, rfl, ?_⟩
  intro x hx
  simp only [List.drop_left]
  rw [deliveryCount_append, deliveryCount_map, deliveryCount_single]
  rw [filter_then_sockId_length st.clients hnd x hx]
  by_cases hxc : c.sockId = x.sockId
  · have hxeq : x = c := sockId_inj hnd x hx c hc hxc.symm
    subst hxeq
    simp [hauth]
  · simp [hxc, Ne.symm hxc]

/-- C1 witness: "alice" (socket 1) chats; "bob" (socket 2, authenticated)
gets exactly one copy, the unauthenticated socket 3 gets none, and "alice"
gets exactly one echo. -/
theorem C1_chat_rewrap_broadcast_witness :
    ∃ st' : ServerState, handle_chat_message witCtx
        ⟨[⟨1, "alice", true, true⟩, ⟨2, "bob", true, true⟩, ⟨3, "", false, true⟩],
          ["alice", "bob"], [], []⟩
        ⟨1, "alice", true, true⟩
        { type := .chat, timestamp := .num 0, sender := .str "alice"
          content := .str "hola"
          metadata := .obj (.cons "room" (.str "general") .nil) } = some st'
      ∧ st'.clients = ([⟨1, "alice", true, true⟩, ⟨2, "bob", true, true⟩,
          ⟨3, "", false, true⟩] : List ClientConnection)
      ∧ st'.usernames = ["alice", "bob"]
      ∧ st'.sent = [] ++
          (((([⟨1, "alice", true, true⟩, ⟨2, "bob", true, true⟩,
              ⟨3, "", false, true⟩] : List ClientConnection).filter
                fun x => x.sockId != (1 : Nat) && x.authenticated).map
            fun x => (x.sockId, rewrappedChat witCtx ⟨1, "alice", true, true⟩
              { type := .chat, timestamp := .num 0, sender := .str "alice"
                content := .str "hola"
                metadata := .obj (.cons "room" (.str "general") .nil) } "hola"))
            ++ [(1, rewrappedChat witCtx ⟨1, "alice", true, true⟩
              { type := .chat, timestamp := .num 0, sender := .str "alice"
                content := .str "hola"
                metadata := .obj (.cons "room" (.str "general") .nil) } "hola")])
      ∧ ∀ x ∈ [⟨1, "alice", true, true⟩, ⟨2, "bob", true, true⟩,
          (⟨3, "", false, true⟩ : ClientConnection)],
          deliveryCount (st'.sent.drop ([] : List (Nat × ChatMessage)).length) x.sockId
            (rewrappedChat witCtx ⟨1, "alice", true, true⟩
              { type := .chat, timestamp := .num 0, sender := .str "alice"
                content := .str "hola"
                metadata := .obj (.cons "room" (.str "general") .nil) } "hola") =
          if x.authenticated then 1 else 0 :=
  C1_chat_rewrap_broadcast witCtx
    ⟨[⟨1, "alice", true, true⟩, ⟨2, "bob", true, true⟩, ⟨3, "", false, true⟩],
      ["alice", "bob"], [], []⟩
    ⟨1, "alice", true, true⟩
    { type := .chat, timestamp := .num 0, sender := .str "alice"
      content := .str "hola"
      metadata := .obj (.cons "room" (.str "general") .nil) }
    "hola" (fun _ => rfl) (by decide) (by decide) rfl rfl
    (Or.inr ⟨.cons "room" (.str "general") .nil, rfl⟩)

/-! ## Claim C3: handshake rejection order -/

/-- C3.  The first client frame is checked in this exact order during the
handshake phase of `client_handler`: (1) if it fails envelope validation,
the reply is `INVALID_MESSAGE`; (2) otherwise, if the deserialized sender
trims to the empty string, the reply is `INVALID_USERNAME` — even when the
empty name is also "taken"; (3) otherwise, if the trimmed name is already
in the claimed-name set, the reply is `USERNAME_TAKEN`.  In each case the
handshake returns failure, exactly the prompt and the one rejection reply
were sent, the session is gone from the map, and its socket is closed
(no retry).  `parsed` is the frame's parse result; sends succeed. -/
theorem C3_handshake_rejection_order (ctx : SysCtx) (st0 : ServerState)
    (sockId : Nat) (parsed : Option JsonValue)
    (hsend : ∀ n, ctx.sendOk n = true) :
    (validate_message parsed = false →
      (client_handler_auth ctx st0 sockId parsed).1 = false
      ∧ (client_handler_auth ctx st0 sockId parsed).2.1.sent = st0.sent ++
          [(sockId, systemMessage ctx.now "Por favor, ingresa tu nombre de usuario:"),
           (sockId, errorMessage ctx.now "INVALID_MESSAGE"
             "Mensaje de autenticación inválido")]
      ∧ (∀ d ∈ (client_handler_auth ctx st0 sockId parsed).2.1.clients,
          d.sockId ≠ sockId)
      ∧ sockId ∈ (client_handler_auth ctx st0 sockId parsed).2.1.closed)
    ∧ (∀ v m sender, parsed = some v → validate_message parsed = true →
        ChatMessage.from_json v = some m → m.sender = .str sender →
        ctx.strip sender = "" →
        (client_handler_auth ctx st0 sockId parsed).1 = false
        ∧ (client_handler_auth ctx st0 sockId parsed).2.1.sent = st0.sent ++
            [(sockId, systemMessage ctx.now "Por favor, ingresa tu nombre de usuario:"),
             (sockId, errorMessage ctx.now "INVALID_USERNAME"
               "El nombre de usuario no puede estar vacío")]
        ∧ (∀ d ∈ (client_handler_auth ctx st0 sockId parsed).2.1.clients,
            d.sockId ≠ sockId)
        ∧ sockId ∈ (client_handler_auth ctx st0 sockId parsed).2.1.closed)
    ∧ (∀ v m sender, parsed = some v → validate_message parsed = true →
        ChatMessage.from_json v = some m → m.sender = .str sender →
        ctx.strip sender ≠ "" → st0.usernames.contains (ctx.strip sender) = true →
        (client_handler_auth ctx st0 sockId parsed).1 = false
        ∧ (client_handler_auth ctx st0 sockId parsed).2.1.sent = st0.sent ++
            [(sockId, systemMessage ctx.now "Por favor, ingresa tu nombre de usuario:"),
             (sockId, errorMessage ctx.now "USERNAME_TAKEN"
               ("El nombre \x27" ++ ctx.strip sender ++ "\x27 ya está en uso"))]
        ∧ (∀ d ∈ (client_handler_auth ctx st0 sockId parsed).2.1.clients,
            d.sockId ≠ sockId)
        ∧ sockId ∈ (client_handler_auth ctx st0 sockId parsed).2.1.closed) := by
  refine ⟨?_, ?_, ?_⟩
  · intro hval
    simp [client_handler_auth, handle_client_authentication, hval,
      send_to_client, hsend, remove_client_not_auth]
  · intro v m sender hv hval hfj hsender hempty
    subst hv
    simp [client_handler_auth, handle_client_authentication, hval, hfj, hsender,
      hempty, send_to_client, hsend, remove_client_not_auth]
  · intro v m sender hv hval hfj hsender hne htaken
    subst hv
    have htaken2 : ctx.strip sender ∈ st0.usernames := by simpa using htaken
    simp [client_handler_auth, handle_client_authentication, hval, hfj, hsender,
      hne, htaken2, send_to_client, hsend, remove_client_not_auth]

/-- C3 witness: a non-JSON first frame on an empty server is rejected with
`INVALID_MESSAGE` and the connection is torn down. -/
theorem C3_handshake_rejection_order_witness :
    (client_handler_auth witCtx ⟨[], [], [], []⟩ 1 none).1 = false
    ∧ (client_handler_auth witCtx ⟨[], [], [], []⟩ 1 none).2.1.sent = [] ++
        [(1, systemMessage witCtx.now "Por favor, ingresa tu nombre de usuario:"),
         (1, errorMessage witCtx.now "INVALID_MESSAGE"
           "Mensaje de autenticación inválido")]
    ∧ (∀ d ∈ (client_handler_auth witCtx ⟨[], [], [], []⟩ 1 none).2.1.clients,
        d.sockId ≠ 1)
    ∧ 1 ∈ (client_handler_auth witCtx ⟨[], [], [], []⟩ 1 none).2.1.closed :=
  (C3_handshake_rejection_order witCtx ⟨[], [], [], []⟩ 1 none (fun _ => rfl)).1 rfl

/-! ## Claim C4: the "joined" broadcast after a successful handshake

The claim says the newly authenticated session does not receive the
"joined" notification.  That is false on the code: `broadcast_message` is
called with no `exclude_client`, and by that point the new session is
already in `self.clients` with `authenticated = True`, so it receives its
own "joined" notification like everyone else.  The rest of the claim
(marked authenticated, name claimed, every other authenticated session
notified once) is correct. -/

/-- C4 counterexample: on an empty server, "alice" (socket 1) authenticates
successfully and receives the "joined" notification about herself —
contradicting the claim that the newly authenticated session does not
receive it. -/
theorem C4_counterexample :
    deliveryCount (client_handler_auth witCtx ⟨[], [], [], []⟩ 1
        (some (.obj (.cons "type" (.str "auth") (.cons "timestamp" (.num 0)
          (.cons "sender" (.str "alice")
            (.cons "content" (.str "authentication") .nil))))))).2.1.sent
      1 (systemMessage 0 "Usuario alice se ha unido al chat!") = 1 := by
  decide

/-- C4 (amended).  On a successful handshake the session object is marked
authenticated and carries the trimmed name, the name is added to the
claimed-name set, and the "joined" SYSTEM notification is broadcast to
*every* authenticated session — the newly authenticated session included:
it receives the joined notification exactly once, as does every previously
authenticated session. -/
theorem C4_amended_joined_broadcast (ctx : SysCtx) (st0 : ServerState)
    (sockId : Nat) (parsed : Option JsonValue) (v : JsonValue)
    (m : ChatMessage) (sender : String)
    (hsend : ∀ n, ctx.sendOk n = true)
    (hnd : (st0.clients.map ClientConnection.sockId).Nodup)
    (hfresh : ∀ d ∈ st0.clients, d.sockId ≠ sockId)
    (hv : parsed = some v) (hval : validate_message parsed = true)
    (hfj : ChatMessage.from_json v = some m)
    (hsender : m.sender = .str sender)
    (hne : ctx.strip sender ≠ "")
    (hfree : st0.usernames.contains (ctx.strip sender) = false) :
    (client_handler_auth ctx st0 sockId parsed).1 = true
    ∧ (client_handler_auth ctx st0 sockId parsed).2.2 =
        (⟨sockId, ctx.strip sender, true, true⟩ : ClientConnection)
    ∧ (client_handler_auth ctx st0 sockId parsed).2.1.clients =
        st0.clients ++ [(⟨sockId, ctx.strip sender, true, true⟩ : ClientConnection)]
    ∧ (client_handler_auth ctx st0 sockId parsed).2.1.usernames =
        st0.usernames ++ [ctx.strip sender]
    ∧ (client_handler_auth ctx st0 sockId parsed).2.1.sent =
        st0.sent ++ [(sockId, systemMessage ctx.now
            "Por favor, ingresa tu nombre de usuario:")]
          ++ (((st0.clients ++ [(⟨sockId, ctx.strip sender, true, true⟩ : ClientConnection)]).filter
              fun d => d.authenticated).map fun d =>
            (d.sockId, systemMessage ctx.now
              ("Usuario " ++ ctx.strip sender ++ " se ha unido al chat!")))
    ∧ deliveryCount
        (((st0.clients ++ [(⟨sockId, ctx.strip sender, true, true⟩ : ClientConnection)]).filter
            fun d => d.authenticated).map fun d =>
          (d.sockId, systemMessage ctx.now
            ("Usuario " ++ ctx.strip sender ++ " se ha unido al chat!")))
        sockId
        (systemMessage ctx.now ("Usuario " ++ ctx.strip sender ++ " se ha unido al chat!"))
      = 1
    ∧ (∀ d ∈ st0.clients, d.authenticated = true →
        deliveryCount
          (((st0.clients ++ [(⟨sockId, ctx.strip sender, true, true⟩ : ClientConnection)]).filter
              fun x => x.authenticated).map fun x =>
            (x.sockId, systemMessage ctx.now
              ("Usuario " ++ ctx.strip sender ++ " se ha unido al chat!")))
          d.sockId
          (systemMessage ctx.now ("Usuario " ++ ctx.strip sender ++ " se ha unido al chat!"))
        = 1) := by
  have hfree2 : ctx.strip sender ∉ st0.usernames := by simpa using hfree
  have hmap : ∀ l : List ClientConnection, (∀ d ∈ l, d.sockId ≠ sockId) →
      l.map (fun d => if d.sockId = sockId
        then (⟨sockId, ctx.strip sender, true, true⟩ : ClientConnection) else d) = l := by
    intro l
    induction l with
    | nil => intro; rfl
    | cons a as iha =>
      intro hall
      rw [List.map_cons, if_neg (hall a (List.mem_cons_self a as)),
        iha fun d hd => hall d (List.mem_cons_of_mem a hd)]
  have hnd2 : ((st0.clients ++ [(⟨sockId, ctx.strip sender, true, true⟩ :
      ClientConnection)]).map ClientConnection.sockId).Nodup := by
    rw [List.map_append]
    refine List.Nodup.append hnd (List.nodup_singleton _) ?_
    intro a ha hb
    obtain ⟨d, hd, rfl⟩ := List.mem_map.mp ha
    simp only [List.map_cons, List.map_nil, List.mem_singleton] at hb
    exact hfresh d hd hb
  have hres : client_handler_auth ctx st0 sockId parsed =
      (true,
       { clients := st0.clients ++ [(⟨sockId, ctx.strip sender, true, true⟩ : ClientConnection)]
         usernames := st0.usernames ++ [ctx.strip sender]
         sent := st0.sent ++ [(sockId, systemMessage ctx.now
             "Por favor, ingresa tu nombre de usuario:")]
           ++ (((st0.clients ++ [(⟨sockId, ctx.strip sender, true, true⟩ : ClientConnection)]).filter
               fun d => d.authenticated).map fun d =>
             (d.sockId, systemMessage ctx.now
               ("Usuario " ++ ctx.strip sender ++ " se ha unido al chat!")))
         closed := st0.closed },
       ⟨sockId, ctx.strip sender, true, true⟩) := by
    subst hv
    rw [client_handler_auth]
    simp only [handle_client_authentication, hval, hfj, hsender, Bool.not_true,
      Bool.false_eq_true, if_false, send_to_client, hsend, if_true, if_neg hne,
      if_neg hfree2]
    rw [broadcast_message_all_ok ctx _ _ _ (fun x _ => hsend x.sockId)]
    have hfilt : ∀ l : List ClientConnection,
        (l.filter fun x => notExcluded none x && x.authenticated) =
        l.filter fun x => x.authenticated :=
      fun l => List.filter_congr fun x _ => by simp [notExcluded]
    simp only [hfilt, namesAdd]
    rw [if_neg (by simpa using hfree2)]
    simp [hmap st0.clients hfresh, hfree2, List.append_assoc]
  refine ⟨by rw [hres], by rw [hres], by rw [hres], by rw [hres], by rw [hres], ?_, ?_⟩
  · rw [deliveryCount_map,
      filter_then_sockId_length _ hnd2 ⟨sockId, ctx.strip sender, true, true⟩
        (List.mem_append_right _ (List.mem_singleton_self _))]
    simp
  · intro d hd hdauth
    rw [deliveryCount_map,
      filter_then_sockId_length _ hnd2 d (List.mem_append_left _ hd)]
    simp [hdauth]

/-- The first authentication frame used in concrete scenarios:
`{"type":"auth","timestamp":0,"sender":"alice","content":"authentication"}`. -/
def authFrameW : Option JsonValue :=
  some (.obj (.cons "type" (.str "auth") (.cons "timestamp" (.num 0)
    (.cons "sender" (.str "alice")
      (.cons "content" (.str "authentication") .nil)))))

/-- C4 witness: with "bob" (socket 2) already authenticated, "alice"
(socket 1) authenticates; the handshake succeeds and the new session itself
receives the "joined" notification exactly once. -/
theorem C4_amended_joined_broadcast_witness :
    (client_handler_auth witCtx ⟨[⟨2, "bob", true, true⟩], ["bob"], [], []⟩
        1 authFrameW).1 = true
    ∧ deliveryCount
        (((([⟨2, "bob", true, true⟩] : List ClientConnection) ++
            [(⟨1, witCtx.strip "alice", true, true⟩ : ClientConnection)]).filter
            fun d => d.authenticated).map fun d =>
          (d.sockId, systemMessage witCtx.now
            ("Usuario " ++ witCtx.strip "alice" ++ " se ha unido al chat!")))
        1
        (systemMessage witCtx.now
          ("Usuario " ++ witCtx.strip "alice" ++ " se ha unido al chat!"))
      = 1 := by
  have h := C4_amended_joined_broadcast witCtx
    ⟨[⟨2, "bob", true, true⟩], ["bob"], [], []⟩ 1 authFrameW
    (.obj (.cons "type" (.str "auth") (.cons "timestamp" (.num 0)
      (.cons "sender" (.str "alice")
        (.cons "content" (.str "authentication") .nil)))))
    ⟨.auth, .num 0, .str "alice", .str "authentication", .null⟩
    "alice" (fun _ => rfl) (by decide) (by decide) rfl (by decide) (by decide)
    rfl (by decide) (by decide)
  exact ⟨h.1, h.2.2.2.2.2.1⟩

/-! ## Claim C6: the registry 1:1 invariant

The claim says *every* registry operation preserves the invariant.
Authentication success does; `remove_client` does not in general: called on
a stale connection object (already removed) whose name has meanwhile been
claimed by a different live session — which the quit/cleanup double-removal
of C9, interleaved with a reconnect, makes reachable — it strips that name
from the set while the new owner stays authenticated in the map, breaking
the 1:1 correspondence. -/

/-- `registryInvB` in propositional form. -/
theorem registryInvB_iff (st : ServerState) :
    registryInvB st = true ↔
      st.usernames.Nodup
      ∧ (∀ c ∈ st.clients, c.authenticated = true →
          c.username ≠ "" ∧ c.username ∈ st.usernames)
      ∧ (∀ u ∈ st.usernames,
          (st.clients.filter fun c => c.authenticated && c.username == u).length
            = 1) := by
  simp only [registryInvB, Bool.and_eq_true, List.all_eq_true, decide_eq_true_eq]
  constructor
  · rintro ⟨⟨hnodup, hentries⟩, hcounts⟩
    refine ⟨hnodup, ?_, ?_⟩
    · intro c hc hauth
      have := hentries c hc
      rw [hauth] at this
      simpa using this
    · intro u hu
      simpa using hcounts u hu
  · rintro ⟨hnodup, hentries, hcounts⟩
    refine ⟨⟨hnodup, ?_⟩, ?_⟩
    · intro c hc
      by_cases hauth : c.authenticated = true
      · have := hentries c hc hauth
        simp [hauth, this.1, this.2]
      · rw [Bool.not_eq_true] at hauth
        simp [hauth]
    · intro u hu
      simpa using hcounts u hu

/-- `registryInvB` only reads the session map and the name set. -/
theorem registryInvB_congr (st st' : ServerState)
    (hc : st'.clients = st.clients) (hu : st'.usernames = st.usernames) :
    registryInvB st' = registryInvB st := by
  simp [registryInvB, hc, hu]

/-- Dropping an outer filter that every inner-passing element satisfies. -/
theorem filter_filter_of_imp {a : Type} (l : List a) (p q : a → Bool)
    (h : ∀ x ∈ l, p x = true → q x = true) :
    (l.filter q).filter p = l.filter p := by
  rw [List.filter_filter]
  apply List.filter_congr
  intro x hx
  by_cases hp : p x = true
  · simp [hp, h x hx hp]
  · rw [Bool.not_eq_true] at hp
    simp [hp]

/-- A list whose entries all sit at sockets other than `c`'s is untouched by
the substitution at `c`'s socket. -/
theorem map_subst_id (xs : List ClientConnection) (c c' : ClientConnection)
    (hxs : ∀ d ∈ xs, d.sockId ≠ c.sockId) :
    xs.map (fun d => if d.sockId = c.sockId then c' else d) = xs := by
  conv_rhs => rw [← List.map_id xs]
  exact List.map_congr_left fun d hd => if_neg (hxs d hd)

/-- Substituting the entry at `c`'s socket id and filtering: when the
substitute passes `p` and nobody at another socket does, exactly the
substitute remains. -/
theorem map_subst_filter_single (l : List ClientConnection)
    (hnd : (l.map ClientConnection.sockId).Nodup) (c : ClientConnection)
    (hc : c ∈ l) (c' : ClientConnection) (p : ClientConnection → Bool)
    (hp : p c' = true)
    (hother : ∀ d ∈ l, d.sockId ≠ c.sockId → p d = false) :
    (l.map fun d => if d.sockId = c.sockId then c' else d).filter p = [c'] := by
  induction l with
  | nil => cases hc
  | cons x xs ih =>
    simp only [List.map_cons, List.nodup_cons] at hnd
    rcases List.mem_cons.mp hc with rfl | hc'
    · have hxs : ∀ d ∈ xs, d.sockId ≠ c.sockId := by
        intro d hd he
        exact hnd.1 (he ▸ List.mem_map_of_mem ClientConnection.sockId hd)
      rw [List.map_cons, if_pos rfl, map_subst_id xs c c' hxs, List.filter_cons,
        if_pos (by simp [hp])]
      have htail : xs.filter p = [] :=
        List.filter_eq_nil_iff.mpr fun d hd => by
          simp [hother d (List.mem_cons_of_mem _ hd) (hxs d hd)]
      rw [htail]
    · have hx : x.sockId ≠ c.sockId := by
        intro he
        exact hnd.1 (he ▸ List.mem_map_of_mem ClientConnection.sockId hc')
      rw [List.map_cons, if_neg hx, List.filter_cons,
        if_neg (by simp [hother x (List.mem_cons_self x xs) hx])]
      exact ih hnd.2 hc' fun d hd => hother d (List.mem_cons_of_mem _ hd)

/-- Substituting at `c`'s socket does not change a filter that rejects both
the old and the new entry there. -/
theorem filter_map_subst_congr (l : List ClientConnection)
    (c c' : ClientConnection) (p : ClientConnection → Bool)
    (h : ∀ d ∈ l, d.sockId = c.sockId → p d = false ∧ p c' = false) :
    (l.map fun d => if d.sockId = c.sockId then c' else d).filter p =
      l.filter p := by
  induction l with
  | nil => rfl
  | cons x xs ih =>
    rw [List.map_cons]
    by_cases hx : x.sockId = c.sockId
    · obtain ⟨hpx, hpc⟩ := h x (List.mem_cons_self x xs) hx
      rw [if_pos hx, List.filter_cons, if_neg (by simp [hpc]),
        List.filter_cons, if_neg (by simp [hpx])]
      exact ih fun d hd => h d (List.mem_cons_of_mem _ hd)
    · rw [if_neg hx, List.filter_cons, List.filter_cons]
      by_cases hpx : p x = true
      · rw [if_pos (by simp [hpx]), if_pos (by simp [hpx]),
          ih fun d hd => h d (List.mem_cons_of_mem _ hd)]
      · rw [Bool.not_eq_true] at hpx
        rw [if_neg (by simp [hpx]), if_neg (by simp [hpx])]
        exact ih fun d hd => h d (List.mem_cons_of_mem _ hd)

/-- Registry effect of the handshake: either it leaves the session map and
name set untouched (all failure branches), or it succeeds, substituting the
authenticated session at `c`'s socket and claiming the fresh name. -/
theorem handle_auth_registry_cases (ctx : SysCtx) (st : ServerState)
    (c : ClientConnection) (parsed : Option JsonValue)
    (hsend : ∀ n, ctx.sendOk n = true) :
    ((handle_client_authentication ctx st c parsed).2.1.clients = st.clients
      ∧ (handle_client_authentication ctx st c parsed).2.1.usernames = st.usernames)
    ∨ (∃ sender, ctx.strip sender ≠ "" ∧ ctx.strip sender ∉ st.usernames
        ∧ (handle_client_authentication ctx st c parsed).2.1.clients =
            st.clients.map (fun d => if d.sockId = c.sockId
              then { c with username := ctx.strip sender, authenticated := true }
              else d)
        ∧ (handle_client_authentication ctx st c parsed).2.1.usernames =
            st.usernames ++ [ctx.strip sender]) := by
  by_cases hval : validate_message parsed = true
  · rcases parsed with _ | v
    · simp [validate_message] at hval
    · rcases hfj : ChatMessage.from_json v with _ | m
      · left
        simp [handle_client_authentication, hval, hfj, send_to_client, hsend]
      · rcases m with ⟨mty, mts, msn, mcn, mmd⟩
        rcases msn with _ | b | n | sender | a | o
        · left
          simp [handle_client_authentication, hval, hfj, send_to_client, hsend]
        · left
          simp [handle_client_authentication, hval, hfj, send_to_client, hsend]
        · left
          simp [handle_client_authentication, hval, hfj, send_to_client, hsend]
        · by_cases hne : ctx.strip sender = ""
          · left
            simp [handle_client_authentication, hval, hfj, hne,
              send_to_client, hsend]
          · by_cases htk : ctx.strip sender ∈ st.usernames
            · left
              simp [handle_client_authentication, hval, hfj, hne, htk,
                send_to_client, hsend]
            · right
              refine ⟨sender, hne, htk, ?_⟩
              have htk2 : st.usernames.contains (ctx.strip sender) = false := by
                simpa using htk
              rw [handle_client_authentication]
              simp only [hval, hfj, Bool.not_true, Bool.false_eq_true, if_false,
                send_to_client, hsend, if_true, if_neg hne, htk2]
              rw [broadcast_message_all_ok ctx _ _ _ (fun x _ => hsend x.sockId)]
              simp [namesAdd, htk, htk2]
        · left
          simp [handle_client_authentication, hval, hfj, send_to_client, hsend]
        · left
          simp [handle_client_authentication, hval, hfj, send_to_client, hsend]
  · left
    rw [Bool.not_eq_true] at hval
    simp [handle_client_authentication, hval, send_to_client, hsend]

/-- Authentication success (and every handshake failure) preserves the
registry's 1:1 invariant. -/
theorem auth_preserves_registryInv (ctx : SysCtx) (st : ServerState)
    (c : ClientConnection) (parsed : Option JsonValue)
    (hsend : ∀ n, ctx.sendOk n = true)
    (hnd : (st.clients.map ClientConnection.sockId).Nodup)
    (hc : c ∈ st.clients) (hcauth : c.authenticated = false)
    (hinv : registryInvB st = true) :
    registryInvB (handle_client_authentication ctx st c parsed).2.1 = true := by
  obtain ⟨hnodup, hentries, hcounts⟩ := (registryInvB_iff st).mp hinv
  rcases handle_auth_registry_cases ctx st c parsed hsend with
    ⟨hcl, hun⟩ | ⟨sender, hne, hfree, hcl, hun⟩
  · rw [registryInvB_congr st _ hcl hun]
    exact hinv
  · rw [registryInvB_iff, hcl, hun]
    refine ⟨?_, ?_, ?_⟩
    · refine List.Nodup.append hnodup (List.nodup_singleton _) ?_
      intro a ha hb
      rw [List.mem_singleton] at hb
      subst hb
      exact hfree ha
    · intro d hd hdauth
      obtain ⟨d0, hd0, hfd0⟩ := List.mem_map.mp hd
      by_cases hsock : d0.sockId = c.sockId
      · rw [if_pos hsock] at hfd0
        subst hfd0
        exact ⟨hne, List.mem_append_right _ (List.mem_singleton_self _)⟩
      · rw [if_neg hsock] at hfd0
        subst hfd0
        obtain ⟨h1, h2⟩ := hentries d0 hd0 hdauth
        exact ⟨h1, List.mem_append_left _ h2⟩
    · intro w hw
      rcases List.mem_append.mp hw with hw' | hw'
      · have hwne : ctx.strip sender ≠ w := fun he => hfree (he ▸ hw')
        rw [filter_map_subst_congr]
        · exact hcounts w hw'
        · intro d hd hdsock
          have hdc : d = c := sockId_inj hnd d hd c hc hdsock
          subst hdc
          constructor
          · simp [hcauth]
          · simp [hwne]
      · rw [List.mem_singleton] at hw'
        subst hw'
        rw [map_subst_filter_single st.clients hnd c hc _ _ (by simp)]
        · rfl
        · intro d hd hdsock
          by_cases hda : d.authenticated = true
          · have := (hentries d hd hda).2
            have hdw : d.username ≠ ctx.strip sender := fun he =>
              hfree (he ▸ this)
            simp [hdw]
          · rw [Bool.not_eq_true] at hda
            simp [hda]

/-- `remove_client` preserves the registry's 1:1 invariant provided the
connection being removed is the map's own entry at that socket (if any) and
its name is not held by a different live authenticated session. -/
theorem remove_preserves_registryInv (ctx : SysCtx) (st : ServerState)
    (c : ClientConnection)
    (hsend : ∀ n, ctx.sendOk n = true)
    (hinv : registryInvB st = true)
    (halias : ∀ d ∈ st.clients, d.sockId = c.sockId → d = c)
    (hname : ∀ d ∈ st.clients, d.authenticated = true →
      d.username = c.username → d.sockId = c.sockId) :
    registryInvB (remove_client ctx st c) = true := by
  obtain ⟨hnodup, hentries, hcounts⟩ := (registryInvB_iff st).mp hinv
  have hreg : registryInvB (remove_client ctx st c) =
      registryInvB { clients := st.clients.filter fun d => d.sockId != c.sockId
                     usernames := st.usernames.erase c.username
                     sent := [], closed := [] } := by
    by_cases hauth : c.authenticated = true
    · rw [remove_client_auth_all_ok ctx st c hauth (fun x _ => hsend x.sockId)]
      exact registryInvB_congr _ _ rfl rfl
    · rw [Bool.not_eq_true] at hauth
      rw [remove_client_not_auth ctx st c hauth]
      exact registryInvB_congr _ _ rfl rfl
  rw [hreg, registryInvB_iff]
  refine ⟨hnodup.erase _, ?_, ?_⟩
  · intro d hd hdauth
    have hd1 := List.mem_of_mem_filter hd
    have hd2 : d.sockId ≠ c.sockId := by simpa using List.of_mem_filter hd
    obtain ⟨hne, hmem⟩ := hentries d hd1 hdauth
    have hdc : d.username ≠ c.username := fun he => hd2 (hname d hd1 hdauth he)
    exact ⟨hne, (List.mem_erase_of_ne hdc).mpr hmem⟩
  · intro u hu
    have hu1 : u ∈ st.usernames := List.mem_of_mem_erase hu
    have hu2 : u ≠ c.username := (hnodup.mem_erase_iff.mp hu).1
    rw [filter_filter_of_imp]
    · exact hcounts u hu1
    · intro d hd hp
      simp only [Bool.and_eq_true, beq_iff_eq] at hp
      have hds : d.sockId ≠ c.sockId := by
        intro he
        have hdc := halias d hd he
        subst hdc
        exact hu2 hp.2.symm
      simpa using hds

/-- C6 counterexample: the state with one authenticated session "bob"
(socket 1) whose name is claimed satisfies the 1:1 invariant; removing a
*stale* connection object (socket 2, flagged authenticated, named "bob",
no longer in the map — exactly what the double removal of the quit path
leaves behind once the name has been re-claimed) strips "bob" from the name
set while session 1 stays authenticated in the map: the invariant is
broken, so client removal does not always preserve it. -/
theorem C6_counterexample :
    registryInvB ⟨[⟨1, "bob", true, true⟩], ["bob"], [], []⟩ = true
    ∧ registryInvB (remove_client witCtx
        ⟨[⟨1, "bob", true, true⟩], ["bob"], [], []⟩
        ⟨2, "bob", true, true⟩) = false :=
  ⟨by decide, by decide⟩

/-- C6 (amended).  Authentication success preserves the 1:1 correspondence
between the claimed-name set and the authenticated entries of the session
map; client removal preserves it provided the removed connection object is
the map's own entry at its socket (if any is present) and its name is not
held by a *different* live authenticated session — without that proviso a
stale removal can strip a re-claimed name (see the counterexample). -/
theorem C6_amended_registry_invariant :
    (∀ (ctx : SysCtx) (st : ServerState) (c : ClientConnection)
        (parsed : Option JsonValue),
      (∀ n, ctx.sendOk n = true) →
      (st.clients.map ClientConnection.sockId).Nodup →
      c ∈ st.clients → c.authenticated = false →
      registryInvB st = true →
      registryInvB (handle_client_authentication ctx st c parsed).2.1 = true)
    ∧ (∀ (ctx : SysCtx) (st : ServerState) (c : ClientConnection),
      (∀ n, ctx.sendOk n = true) →
      registryInvB st = true →
      (∀ d ∈ st.clients, d.sockId = c.sockId → d = c) →
      (∀ d ∈ st.clients, d.authenticated = true →
        d.username = c.username → d.sockId = c.sockId) →
      registryInvB (remove_client ctx st c) = true) :=
  ⟨fun ctx st c parsed h1 h2 h3 h4 h5 =>
      auth_preserves_registryInv ctx st c parsed h1 h2 h3 h4 h5,
   fun ctx st c h1 h2 h3 h4 =>
      remove_preserves_registryInv ctx st c h1 h2 h3 h4⟩

/-- C6 witness: a fresh connection authenticating as "alice" on a one-session
server keeps the invariant, and removing "bob" normally (the map's own
entry, name held by nobody else) keeps it too. -/
theorem C6_amended_registry_invariant_witness :
    registryInvB (handle_client_authentication witCtx
        ⟨[⟨1, "", false, true⟩], [], [], []⟩
        ⟨1, "", false, true⟩ authFrameW).2.1 = true
    ∧ registryInvB (remove_client witCtx
        ⟨[⟨1, "bob", true, true⟩], ["bob"], [], []⟩
        ⟨1, "bob", true, true⟩) = true :=
  ⟨C6_amended_registry_invariant.1 witCtx ⟨[⟨1, "", false, true⟩], [], [], []⟩
      ⟨1, "", false, true⟩ authFrameW (fun _ => rfl) (by decide) (by decide)
      rfl (by decide),
   C6_amended_registry_invariant.2 witCtx
      ⟨[⟨1, "bob", true, true⟩], ["bob"], [], []⟩ ⟨1, "bob", true, true⟩
      (fun _ => rfl) (by decide) (by decide) (by decide)⟩

end SecurePy
